import Mathlib

/-!
Shallow embedding of `src/playground.rs` (a Discord-bot module that runs
Rust code on the rust-lang playground) together with theorems settling the
specification claims about it.

HTTP traffic is modelled by treating remote responses as inputs and
recording outgoing calls in a trace, so every function here is pure and
executable.
-/

namespace Playground

/-- `Channel` enum from the source (`Stable`, `Beta`, `Nightly`). -/
inductive Channel where
  | Stable
  | Beta
  | Nightly
deriving DecidableEq, Repr

/-- `Edition` enum from the source (`E2015`, `E2018`). -/
inductive Edition where
  | E2015
  | E2018
deriving DecidableEq, Repr

/-- `CrateType` enum from the source (`Binary`, `Library`). -/
inductive CrateType where
  | Binary
  | Library
deriving DecidableEq, Repr

/-- `Mode` enum from the source (`Debug`, `Release`). -/
inductive Mode where
  | Debug
  | Release
deriving DecidableEq, Repr

/-- `impl FromStr for Channel` from the source. -/
def Channel.fromStr (s : String) : Except String Channel :=
  match s with
  | "stable" => .ok .Stable
  | "beta" => .ok .Beta
  | "nightly" => .ok .Nightly
  | _ => .error ("invalid release channel `" ++ s ++ "`")

/-- `impl FromStr for Edition` from the source. -/
def Edition.fromStr (s : String) : Except String Edition :=
  match s with
  | "2015" => .ok .E2015
  | "2018" => .ok .E2018
  | _ => .error ("invalid edition `" ++ s ++ "`")

/-- `impl FromStr for Mode` from the source. -/
def Mode.fromStr (s : String) : Except String Mode :=
  match s with
  | "debug" => .ok .Debug
  | "release" => .ok .Release
  | _ => .error ("invalid compilation mode `" ++ s ++ "`")

/-- Rust's `impl FromStr for bool` (standard library): accepts exactly
`"true"` and `"false"`.  The error payload is irrelevant to the source,
which discards it. -/
def boolFromStr (s : String) : Except String Bool :=
  match s with
  | "true" => .ok true
  | "false" => .ok false
  | _ => .error "provided string was not `true` or `false`"

/-- Rust's `str::contains` with a string pattern: substring containment,
on the character lists underlying the strings. -/
def strContains (hay needle : String) : Bool :=
  decide (needle.data <:+: hay.data)

/-- `PlayResult` struct from the source: the remote JSON response shape. -/
structure PlayResult where
  success : Bool
  stdout : String
  stderr : String
deriving DecidableEq, Repr

/-- `CommandFlags` struct from the source. -/
structure CommandFlags where
  channel : Channel
  mode : Mode
  edition : Edition
deriving DecidableEq, Repr

/-- `PlaygroundRequest` struct from the source (the JSON body POSTed to
the execute endpoint). -/
structure PlaygroundRequest where
  channel : Channel
  edition : Edition
  code : String
  crate_type : CrateType
  mode : Mode
  tests : Bool
deriving DecidableEq, Repr

/-- `MiriRequest` struct from the source. -/
structure MiriRequest where
  edition : Edition
  code : String
deriving DecidableEq, Repr

/-- The command's `Args`: the parameter map (Rust `HashMap<String, String>`,
modelled as a lookup function) and the free-text body. -/
structure Args where
  params : String → Option String
  body : String

/-- `parse_flags` from the source: resolves `channel`, `mode`, `edition`
and `warn` parameters against the defaults, accumulating parse errors
as text.  Returns `(flags, warnings, errors)`. -/
def parse_flags (args : Args) : CommandFlags × Bool × String :=
  let errors := ""
  let flags : CommandFlags :=
    { channel := .Nightly, mode := .Debug, edition := .E2018 }
  let warnings := false
  let (flags, errors) :=
    match args.params "channel" with
    | some channel =>
      match Channel.fromStr channel with
      | .ok c => ({ flags with channel := c }, errors)
      | .error e => (flags, errors ++ (e ++ "\n"))
    | none => (flags, errors)
  let (flags, errors) :=
    match args.params "mode" with
    | some mode =>
      match Mode.fromStr mode with
      | .ok m => ({ flags with mode := m }, errors)
      | .error e => (flags, errors ++ (e ++ "\n"))
    | none => (flags, errors)
  let (flags, errors) :=
    match args.params "edition" with
    | some edition =>
      match Edition.fromStr edition with
      | .ok e => ({ flags with edition := e }, errors)
      | .error e => (flags, errors ++ (e ++ "\n"))
    | none => (flags, errors)
  let (warnings, errors) :=
    match args.params "warn" with
    | some warn =>
      match boolFromStr warn with
      | .ok e => (e, errors)
      | .error _ => (warnings, errors ++ "invalid warn bool\n")
    | none => (warnings, errors)
  (flags, warnings, errors)

/-- The outgoing HTTP calls the module can make, recorded as a trace. -/
inductive HttpCall where
  | executeCall (req : PlaygroundRequest)
  | miriCall (req : MiriRequest)
  | gistCall (code : String)
deriving DecidableEq, Repr

/-- The reply surface.  `sendReply` is `api::send_reply`;
`potentiallyLong` records the three string arguments the source passes to
`crate::reply_potentially_long_text`; `missingCodeBlock` is the fixed
reply of `crate::reply_missing_code_block_err`. -/
inductive Reply where
  | sendReply (msg : String)
  | potentiallyLong (msg : String) (mustBeLast : String) (tooLongMsg : String)
  | missingCodeBlock
deriving DecidableEq, Repr

/-- `post_gist` from the source, with the parsed JSON response of the
paste service supplied as input: removes the `"id"` entry and returns it,
or fails with `"no gist found"`. -/
def post_gist (resp : List (String × String)) : Except String String :=
  match resp.lookup "id" with
  | some gist_id => .ok gist_id
  | none => .error "no gist found"

/-- `url_from_gist` from the source. -/
def url_from_gist (flags : CommandFlags) (gist_id : String) : String :=
  "https://play.rust-lang.org/?version=" ++
    (match flags.channel with
     | .Nightly => "nightly"
     | .Beta => "beta"
     | .Stable => "stable") ++
  "&mode=" ++
    (match flags.mode with
     | .Debug => "debug"
     | .Release => "release") ++
  "&edition=" ++
    (match flags.edition with
     | .E2015 => "2015"
     | .E2018 => "2018") ++
  "&gist=" ++ gist_id

/-- The `let result = ...` rendering step at the top of
`send_play_result_reply`: which stream(s) of the `PlayResult` are shown. -/
def render (result : PlayResult) (warn : Bool) : String :=
  if warn then result.stderr ++ "\n" ++ result.stdout
  else if result.success then result.stdout
  else result.stderr

/-- `send_play_result_reply` from the source.  `gistResponse` is the
parsed JSON the paste service would return; the returned trace lists the
HTTP calls made (the gist POST happens eagerly in the non-empty branch,
since Rust evaluates the `format!` argument before the call), and the
`Except` carries the reply or the propagated error. -/
def send_play_result_reply (result : PlayResult) (code : String)
    (flags : CommandFlags) (warn : Bool) (flag_parse_errors : String)
    (gistResponse : List (String × String)) :
    List HttpCall × Except String Reply :=
  let result := render result warn
  if result.isEmpty then
    ([], .ok (.sendReply (flag_parse_errors ++ "``` ```")))
  else
    match post_gist gistResponse with
    | .error e => ([.gistCall code], .error e)
    | .ok gist_id =>
      ([.gistCall code],
       .ok (.potentiallyLong (flag_parse_errors ++ "```\n" ++ result) "```"
         ("Output too large. Playground link: " ++ url_from_gist flags gist_id)))

/-- `run_code_and_reply` from the source, shared by `?play` and `?eval`.
`executeResponse` is the execute endpoint's parsed JSON response
(`none` models a transport or deserialization failure, which propagates). -/
def run_code_and_reply (args : Args) (code : String)
    (executeResponse : Option PlayResult)
    (gistResponse : List (String × String)) :
    List HttpCall × Except String Reply :=
  let (flags, warn, flag_parse_errors) := parse_flags args
  let req : PlaygroundRequest :=
    { code := code
      channel := flags.channel
      crate_type := if strContains code "fn main" then .Binary else .Library
      edition := flags.edition
      mode := flags.mode
      tests := false }
  match executeResponse with
  | none => ([.executeCall req], .error "http error")
  | some result =>
    let (calls, reply) :=
      send_play_result_reply result code flags warn flag_parse_errors gistResponse
    (.executeCall req :: calls, reply)

/-- `play` from the source.  `extract` stands for `crate::extract_code`,
which lives outside this module; its behavior is irrelevant beyond
whether it finds a fenced code block. -/
def play (extract : String → Option String) (args : Args)
    (executeResponse : Option PlayResult)
    (gistResponse : List (String × String)) :
    List HttpCall × Except String Reply :=
  match extract args.body with
  | some code => run_code_and_reply args code executeResponse gistResponse
  | none => ([], .ok .missingCodeBlock)

/-- Rust's `str::lines`: split on `'\n'`, strip a trailing `'\r'` from
each line, and drop the final empty line a trailing newline produces. -/
def rustLines (s : String) : List String :=
  let parts := s.splitOn "\n"
  let parts :=
    match parts.reverse with
    | "" :: rest => rest.reverse
    | _ => parts
  parts.map fun l => if l.endsWith "\r" then l.dropRight 1 else l

/-- The synthetic `main` wrapper `eval` builds (the `full_code` local):
each user line indented inside a `main` that debug-prints the block. -/
def eval_full_code (code : String) : String :=
  let full_code := "fn main() \x7b\n    println!(\"\x7b:?\x7d\", \x7b\n"
  let full_code := (rustLines code).foldl
    (fun acc line => acc ++ "        " ++ line ++ "\n") full_code
  full_code ++ "    \x7d);\n\x7d"

/-- `eval` from the source. -/
def eval (extract : String → Option String) (args : Args)
    (executeResponse : Option PlayResult)
    (gistResponse : List (String × String)) :
    List HttpCall × Except String Reply :=
  match extract args.body with
  | none => ([], .ok .missingCodeBlock)
  | some code =>
    if strContains code "fn main" then
      ([], .ok (.sendReply "code passed to ?eval should not contain `fn main`"))
    else
      run_code_and_reply args (eval_full_code code) executeResponse gistResponse

/-- `miri` from the source.  `miriResponse` is the miri endpoint's parsed
JSON response (`none` models a transport failure). -/
def miri (extract : String → Option String) (args : Args)
    (miriResponse : Option PlayResult)
    (gistResponse : List (String × String)) :
    List HttpCall × Except String Reply :=
  match extract args.body with
  | none => ([], .ok .missingCodeBlock)
  | some code =>
    let (flags, warn, flag_parse_errors) := parse_flags args
    let req : MiriRequest := { edition := flags.edition, code := code }
    match miriResponse with
    | none => ([.miriCall req], .error "http error")
    | some result =>
      let (calls, reply) :=
        send_play_result_reply result code flags warn flag_parse_errors gistResponse
      (.miriCall req :: calls, reply)

/-- Modelled from the spec: `crate::reply_potentially_long_text` is not in
this module.  Per the spec, when the combined reply exceeds the chat
platform's maximum message length it sends the short fallback text
instead of the inline message; the actual numeric limit is external, so
it is a parameter here.  `resolveReply` turns a structured `Reply` into
the text actually sent under a given limit. -/
def resolveReply (limit : Nat) : Reply → String
  | .sendReply msg => msg
  | .missingCodeBlock => "missing code block"
  | .potentiallyLong msg mustBeLast tooLongMsg =>
    if limit < (msg ++ mustBeLast).length then tooLongMsg
    else msg ++ mustBeLast

/-! ### Characterization of `parse_flags`, one key at a time -/

/-- The channel `parse_flags` resolves for a given raw `channel` parameter. -/
def channelResolved (o : Option String) : Channel :=
  match o with
  | none => .Nightly
  | some s =>
    match Channel.fromStr s with
    | .ok c => c
    | .error _ => .Nightly

/-- The error text the `channel` parameter contributes. -/
def channelError (o : Option String) : String :=
  match o with
  | none => ""
  | some s =>
    match Channel.fromStr s with
    | .ok _ => ""
    | .error e => e ++ "\n"

/-- The mode `parse_flags` resolves for a given raw `mode` parameter. -/
def modeResolved (o : Option String) : Mode :=
  match o with
  | none => .Debug
  | some s =>
    match Mode.fromStr s with
    | .ok m => m
    | .error _ => .Debug

/-- The error text the `mode` parameter contributes. -/
def modeError (o : Option String) : String :=
  match o with
  | none => ""
  | some s =>
    match Mode.fromStr s with
    | .ok _ => ""
    | .error e => e ++ "\n"

/-- The edition `parse_flags` resolves for a given raw `edition` parameter. -/
def editionResolved (o : Option String) : Edition :=
  match o with
  | none => .E2018
  | some s =>
    match Edition.fromStr s with
    | .ok e => e
    | .error _ => .E2018

/-- The error text the `edition` parameter contributes. -/
def editionError (o : Option String) : String :=
  match o with
  | none => ""
  | some s =>
    match Edition.fromStr s with
    | .ok _ => ""
    | .error e => e ++ "\n"

/-- The warn flag `parse_flags` resolves for a given raw `warn` parameter. -/
def warnResolved (o : Option String) : Bool :=
  match o with
  | none => false
  | some s =>
    match boolFromStr s with
    | .ok b => b
    | .error _ => false

/-- The error text the `warn` parameter contributes. -/
def warnError (o : Option String) : String :=
  match o with
  | none => ""
  | some s =>
    match boolFromStr s with
    | .ok _ => ""
    | .error _ => "invalid warn bool\n"

/-! ### Helper lemmas about substring containment -/

/-- `strContains` unfolded to the underlying infix relation. -/
theorem strContains_spec (hay needle : String) :
    strContains hay needle = true ↔ needle.data <:+: hay.data := by
  simp [strContains]

theorem strContains_refl (s : String) : strContains s s = true := by
  rw [strContains_spec]

theorem strContains_suffix_self (a b : String) :
    strContains (a ++ b) b = true := by
  rw [strContains_spec]
  refine ⟨a.data, [], ?_⟩
  simp

theorem strContains_append_left (a b t : String)
    (h : strContains a t = true) : strContains (a ++ b) t = true := by
  rw [strContains_spec] at h ⊢
  obtain ⟨u, v, huv⟩ := h
  exact ⟨u, v ++ b.data, by rw [String.data_append, ← huv]; simp⟩

theorem strContains_append_right (a b t : String)
    (h : strContains b t = true) : strContains (a ++ b) t = true := by
  rw [strContains_spec] at h ⊢
  obtain ⟨u, v, huv⟩ := h
  exact ⟨a.data ++ u, v, by rw [String.data_append, ← huv]; simp⟩

/-- `parse_flags` decomposed: each field of the result depends only on its
own parameter, and the error text is the concatenation of the four
per-key contributions, in source order. -/
theorem parse_flags_eq (args : Args) :
    parse_flags args =
      ({ channel := channelResolved (args.params "channel")
         mode := modeResolved (args.params "mode")
         edition := editionResolved (args.params "edition") },
       warnResolved (args.params "warn"),
       channelError (args.params "channel") ++ modeError (args.params "mode") ++
         editionError (args.params "edition") ++ warnError (args.params "warn")) := by
  rcases hc : args.params "channel" with _ | cs <;>
    rcases hm : args.params "mode" with _ | ms <;>
      rcases he : args.params "edition" with _ | es <;>
        rcases hw : args.params "warn" with _ | ws <;>
          simp only [parse_flags, channelResolved, channelError, modeResolved, modeError,
            editionResolved, editionError, warnResolved, warnError, hc, hm, he, hw] <;>
          (try cases Channel.fromStr cs) <;>
          (try cases Mode.fromStr ms) <;>
          (try cases Edition.fromStr es) <;>
          (try cases boolFromStr ws) <;>
          (try simp)

/-- The error payload of a failed `Channel` parse is determined by the
raw input. -/
theorem channelFromStr_error_eq (s e : String)
    (h : Channel.fromStr s = .error e) :
    e = "invalid release channel `" ++ s ++ "`" := by
  unfold Channel.fromStr at h
  split at h <;> simp_all

/-- The error payload of a failed `Mode` parse is determined by the
raw input. -/
theorem modeFromStr_error_eq (s e : String)
    (h : Mode.fromStr s = .error e) :
    e = "invalid compilation mode `" ++ s ++ "`" := by
  unfold Mode.fromStr at h
  split at h <;> simp_all

/-- The error payload of a failed `Edition` parse is determined by the
raw input. -/
theorem editionFromStr_error_eq (s e : String)
    (h : Edition.fromStr s = .error e) :
    e = "invalid edition `" ++ s ++ "`" := by
  unfold Edition.fromStr at h
  split at h <;> simp_all

/-! ### Claim theorems -/

/-- C2: for every `ExecutionResult {success, stdout, stderr}` and warn
flag, the rendered reply text is `stderr ++ "\n" ++ stdout` when warn is
true (regardless of success), `stdout` alone when warn is false and
success is true, and `stderr` alone when warn is false and success is
false. -/
theorem claim_C2_render_stream_selection (success : Bool) (out err : String) :
    render ⟨success, out, err⟩ true = err ++ "\n" ++ out ∧
    render ⟨true, out, err⟩ false = out ∧
    render ⟨false, out, err⟩ false = err :=
  ⟨rfl, rfl, rfl⟩

/-- C3 (counterexample): on a gist-upload response without an `id` field,
`post_gist` fails with the error text `no gist found`, which is not the
`no identifier found` text the claim quotes. -/
theorem claim_C3_counterexample :
    post_gist [] = .error "no gist found" ∧
    "no gist found" ≠ "no identifier found" :=
  ⟨rfl, by decide⟩

/-- C3 (amended): for every gist-upload response, if the response JSON
object lacks the identifier field `id`, `post_gist` fails with an
explicit `no gist found` error; if the field is present, `post_gist`
returns its value as the gist identifier. -/
theorem claim_C3_post_gist_id_resolution (resp : List (String × String)) :
    (resp.lookup "id" = none → post_gist resp = .error "no gist found") ∧
    (∀ v, resp.lookup "id" = some v → post_gist resp = .ok v) := by
  constructor
  · intro h
    simp [post_gist, h]
  · intro v h
    simp [post_gist, h]

/-- Witness for C3: concrete responses without and with the `id` field. -/
theorem claim_C3_witness :
    post_gist [("lang", "rust")] = .error "no gist found" ∧
    post_gist [("id", "abc123")] = .ok "abc123" :=
  ⟨(claim_C3_post_gist_id_resolution [("lang", "rust")]).1 rfl,
   (claim_C3_post_gist_id_resolution [("id", "abc123")]).2 "abc123" rfl⟩

/-- C5: for every `eval` invocation whose extracted code block contains
the entry-point marker, the command replies with a usage error and stops
without issuing any remote HTTP call (the call trace is empty). -/
theorem claim_C5_eval_rejects_fn_main (extract : String → Option String)
    (args : Args) (executeResponse : Option PlayResult)
    (gistResponse : List (String × String)) (code : String)
    (hx : extract args.body = some code)
    (hmain : strContains code "fn main" = true) :
    eval extract args executeResponse gistResponse =
      ([], .ok (.sendReply "code passed to ?eval should not contain `fn main`")) := by
  simp [eval, hx, hmain]

/-- Witness for C5: a concrete snippet containing `fn main`. -/
theorem claim_C5_witness :
    eval (fun _ => some "fn main() \x7b\x7d") ⟨fun _ => none, "b"⟩ none [] =
      ([], .ok (.sendReply "code passed to ?eval should not contain `fn main`")) :=
  claim_C5_eval_rejects_fn_main _ _ _ _ "fn main() \x7b\x7d" rfl (by decide)

/-- C6: for each of the three entry points `play`, `eval` and `miri`, if
the command body contains no fenced code block, the command returns the
fixed missing-code-block reply and issues no remote call (the call trace
is empty). -/
theorem claim_C6_missing_code_block (extract : String → Option String)
    (args : Args) (executeResponse miriResponse : Option PlayResult)
    (gistResponse : List (String × String))
    (hx : extract args.body = none) :
    play extract args executeResponse gistResponse = ([], .ok .missingCodeBlock) ∧
    eval extract args executeResponse gistResponse = ([], .ok .missingCodeBlock) ∧
    miri extract args miriResponse gistResponse = ([], .ok .missingCodeBlock) := by
  refine ⟨?_, ?_, ?_⟩ <;> simp [play, eval, miri, hx]

/-- Witness for C6: a concrete body without a code block. -/
theorem claim_C6_witness :
    play (fun _ => none) ⟨fun _ => none, "no code"⟩ none [] =
      ([], .ok .missingCodeBlock) ∧
    eval (fun _ => none) ⟨fun _ => none, "no code"⟩ none [] =
      ([], .ok .missingCodeBlock) ∧
    miri (fun _ => none) ⟨fun _ => none, "no code"⟩ none [] =
      ([], .ok .missingCodeBlock) :=
  claim_C6_missing_code_block _ _ _ _ _ rfl

/-- C7: for every invocation whose rendered result text is empty, a reply
is still sent, namely the accumulated flag-parse errors followed by an
explicitly empty fenced code block. -/
theorem claim_C7_empty_render_reply (result : PlayResult) (code : String)
    (flags : CommandFlags) (warn : Bool) (flag_parse_errors : String)
    (gistResponse : List (String × String))
    (h : (render result warn).isEmpty = true) :
    send_play_result_reply result code flags warn flag_parse_errors gistResponse =
      ([], .ok (.sendReply (flag_parse_errors ++ "``` ```"))) := by
  simp [send_play_result_reply, h]

/-- Witness for C7: a successful run with empty stdout. -/
theorem claim_C7_witness :
    send_play_result_reply ⟨true, "", "ignored"⟩ "c" ⟨.Nightly, .Debug, .E2018⟩
        false "E\n" [] =
      ([], .ok (.sendReply ("E\n" ++ "``` ```"))) :=
  claim_C7_empty_render_reply _ _ _ _ _ _ rfl

/-- C10: for every invocation, the accumulated flag-parse error text is
prepended to the reply in both reply branches: it precedes the fenced
output when the rendered result is non-empty, and it precedes the empty
fenced block when the rendered result is empty. -/
theorem claim_C10_errors_prepended (result : PlayResult) (code : String)
    (flags : CommandFlags) (warn : Bool) (fpe : String)
    (resp : List (String × String)) :
    ((render result warn).isEmpty = true →
      (send_play_result_reply result code flags warn fpe resp).2 =
        .ok (.sendReply (fpe ++ "``` ```"))) ∧
    (∀ gist_id, (render result warn).isEmpty = false →
      resp.lookup "id" = some gist_id →
      (send_play_result_reply result code flags warn fpe resp).2 =
        .ok (.potentiallyLong (fpe ++ "```\n" ++ render result warn) "```"
          ("Output too large. Playground link: " ++ url_from_gist flags gist_id))) := by
  constructor
  · intro h
    simp [send_play_result_reply, h]
  · intro gist_id h hid
    simp [send_play_result_reply, h, post_gist, hid]

/-- Witness for C10: both branches at concrete inputs, with error text
`E\n` visibly leading the reply. -/
theorem claim_C10_witness :
    (send_play_result_reply ⟨true, "", ""⟩ "c" ⟨.Nightly, .Debug, .E2018⟩
        false "E\n" []).2 =
      .ok (.sendReply ("E\n" ++ "``` ```")) ∧
    (send_play_result_reply ⟨true, "4", ""⟩ "c" ⟨.Nightly, .Debug, .E2018⟩
        false "E\n" [("id", "g")]).2 =
      .ok (.potentiallyLong ("E\n" ++ "```\n" ++ "4") "```"
        ("Output too large. Playground link: " ++
          url_from_gist ⟨.Nightly, .Debug, .E2018⟩ "g")) :=
  ⟨(claim_C10_errors_prepended ⟨true, "", ""⟩ "c" ⟨.Nightly, .Debug, .E2018⟩
      false "E\n" []).1 rfl,
   (claim_C10_errors_prepended ⟨true, "4", ""⟩ "c" ⟨.Nightly, .Debug, .E2018⟩
      false "E\n" [("id", "g")]).2 "g" rfl rfl⟩

/-- C4: for every code string submitted to the standard execute path, the
request's crate kind is `Binary` exactly when the code contains the
entry-point marker substring `fn main`, and `Library` otherwise. -/
theorem claim_C4_crate_type_heuristic (args : Args) (code : String)
    (executeResponse : Option PlayResult)
    (gistResponse : List (String × String)) :
    ∃ req : PlaygroundRequest,
      (run_code_and_reply args code executeResponse gistResponse).1.head? =
        some (.executeCall req) ∧
      req.code = code ∧
      (req.crate_type = .Binary ↔ "fn main".data <:+: code.data) ∧
      (req.crate_type = .Library ↔ ¬ "fn main".data <:+: code.data) := by
  rcases hpf : parse_flags args with ⟨flags, warn, fpe⟩
  refine ⟨{ code := code
            channel := flags.channel
            crate_type := if strContains code "fn main" then .Binary else .Library
            edition := flags.edition
            mode := flags.mode
            tests := false }, ?_, rfl, ?_, ?_⟩
  · cases executeResponse with
    | none => simp [run_code_and_reply, hpf]
    | some r =>
      rcases hs : send_play_result_reply r code flags warn fpe gistResponse
        with ⟨calls, reply⟩
      simp [run_code_and_reply, hpf, hs]
  · cases hsc : strContains code "fn main" with
    | false =>
      have hn : ¬ "fn main".data <:+: code.data := by
        rw [← strContains_spec]
        simp [hsc]
      simp [hsc, hn]
    | true =>
      have hp : "fn main".data <:+: code.data := (strContains_spec _ _).1 hsc
      simp [hsc, hp]
  · cases hsc : strContains code "fn main" with
    | false =>
      have hn : ¬ "fn main".data <:+: code.data := by
        rw [← strContains_spec]
        simp [hsc]
      simp [hsc, hn]
    | true =>
      have hp : "fn main".data <:+: code.data := (strContains_spec _ _).1 hsc
      simp [hsc, hp]

/-- Folding the indent-and-append step of `eval` over any list of lines
only ever appends to the accumulator. -/
theorem foldl_indent_extends (l : List String) (acc : String) :
    ∃ s, l.foldl (fun acc line => acc ++ "        " ++ line ++ "\n") acc = acc ++ s := by
  induction l generalizing acc with
  | nil => exact ⟨"", by simp⟩
  | cons x xs ih =>
    obtain ⟨s, hs⟩ := ih (acc ++ "        " ++ x ++ "\n")
    refine ⟨"        " ++ x ++ "\n" ++ s, ?_⟩
    rw [List.foldl_cons, hs]
    simp [String.append_assoc]

/-- The synthetic wrapper `eval` builds always starts with `fn main`,
so it contains the entry-point marker. -/
theorem eval_full_code_contains_fn_main (code : String) :
    strContains (eval_full_code code) "fn main" = true := by
  simp only [eval_full_code]
  obtain ⟨s, hs⟩ := foldl_indent_extends (rustLines code)
    "fn main() \x7b\n    println!(\"\x7b:?\x7d\", \x7b\n"
  rw [hs]
  apply strContains_append_left
  apply strContains_append_left
  decide

/-- C9: for every `eval` invocation that proceeds past the entry-point
check, the wrapped program submitted to the execute endpoint contains the
entry-point marker, so the request's crate kind is `Binary`, never
`Library`. -/
theorem claim_C9_eval_requests_are_binary (extract : String → Option String)
    (args : Args) (executeResponse : Option PlayResult)
    (gistResponse : List (String × String)) (code : String)
    (hx : extract args.body = some code)
    (hno : strContains code "fn main" = false) :
    strContains (eval_full_code code) "fn main" = true ∧
    ∃ req : PlaygroundRequest,
      (eval extract args executeResponse gistResponse).1.head? =
        some (.executeCall req) ∧
      req.code = eval_full_code code ∧
      req.crate_type = .Binary := by
  refine ⟨eval_full_code_contains_fn_main code, ?_⟩
  rcases hpf : parse_flags args with ⟨flags, warn, fpe⟩
  refine ⟨{ code := eval_full_code code
            channel := flags.channel
            crate_type := .Binary
            edition := flags.edition
            mode := flags.mode
            tests := false }, ?_, rfl, rfl⟩
  have hc : strContains (eval_full_code code) "fn main" = true :=
    eval_full_code_contains_fn_main code
  cases executeResponse with
  | none => simp [eval, hx, hno, run_code_and_reply, hpf, hc]
  | some r =>
    rcases hs : send_play_result_reply r (eval_full_code code) flags warn fpe
      gistResponse with ⟨calls, reply⟩
    simp [eval, hx, hno, run_code_and_reply, hpf, hc, hs]

/-- Witness for C9: a concrete expression snippet. -/
theorem claim_C9_witness :
    strContains (eval_full_code "1+1") "fn main" = true ∧
    ∃ req : PlaygroundRequest,
      (eval (fun _ => some "1+1") ⟨fun _ => none, ""⟩ none []).1.head? =
        some (.executeCall req) ∧
      req.code = eval_full_code "1+1" ∧
      req.crate_type = .Binary :=
  claim_C9_eval_requests_are_binary _ _ _ _ "1+1" rfl (by decide)

/-- C8: for every invocation whose combined reply exceeds the
message-size limit, the paste-upload path is invoked exactly once with
the original code, and the replacement reply is the overflow notice whose
playground URL embeds the resolved channel, mode and edition and the
returned gist identifier as query parameters. -/
theorem claim_C8_overflow_gist_reply (limit : Nat) (args : Args) (code : String)
    (result : PlayResult) (resp : List (String × String)) (gist_id : String)
    (flags : CommandFlags) (warn : Bool) (fpe : String)
    (hpf : parse_flags args = (flags, warn, fpe))
    (hid : resp.lookup "id" = some gist_id)
    (hne : (render result warn).isEmpty = false)
    (hover : limit < ((fpe ++ "```\n" ++ render result warn) ++ "```").length) :
    ((run_code_and_reply args code (some result) resp).1.count
        (.gistCall code) = 1 ∧
      ∀ c, HttpCall.gistCall c ∈ (run_code_and_reply args code (some result) resp).1 →
        c = code) ∧
    ∃ r, (run_code_and_reply args code (some result) resp).2 = .ok r ∧
      resolveReply limit r =
        "Output too large. Playground link: " ++
          ("https://play.rust-lang.org/?version=" ++
            (match flags.channel with
             | .Nightly => "nightly"
             | .Beta => "beta"
             | .Stable => "stable") ++
          "&mode=" ++
            (match flags.mode with
             | .Debug => "debug"
             | .Release => "release") ++
          "&edition=" ++
            (match flags.edition with
             | .E2015 => "2015"
             | .E2018 => "2018") ++
          "&gist=" ++ gist_id) := by
  have hrun : run_code_and_reply args code (some result) resp =
      ([.executeCall { code := code
                       channel := flags.channel
                       crate_type := if strContains code "fn main" then .Binary
                         else .Library
                       edition := flags.edition
                       mode := flags.mode
                       tests := false },
        .gistCall code],
       .ok (.potentiallyLong (fpe ++ "```\n" ++ render result warn) "```"
         ("Output too large. Playground link: " ++ url_from_gist flags gist_id))) := by
    simp [run_code_and_reply, hpf, send_play_result_reply, hne, post_gist, hid]
  refine ⟨⟨?_, ?_⟩, ?_⟩
  · rw [hrun]
    simp [List.count_cons]
  · intro c hc
    rw [hrun] at hc
    simp at hc
    exact hc
  · refine ⟨.potentiallyLong (fpe ++ "```\n" ++ render result warn) "```"
      ("Output too large. Playground link: " ++ url_from_gist flags gist_id),
      by rw [hrun], ?_⟩
    simp only [resolveReply, url_from_gist]
    rw [if_pos hover]

/-- Witness for C8: limit 0, a one-line output and a gist response
carrying an identifier. -/
theorem claim_C8_witness :
    ((run_code_and_reply ⟨fun _ => none, ""⟩ "c" (some ⟨true, "out", ""⟩)
        [("id", "g")]).1.count (.gistCall "c") = 1 ∧
      ∀ c, HttpCall.gistCall c ∈
          (run_code_and_reply ⟨fun _ => none, ""⟩ "c" (some ⟨true, "out", ""⟩)
            [("id", "g")]).1 → c = "c") ∧
    ∃ r, (run_code_and_reply ⟨fun _ => none, ""⟩ "c" (some ⟨true, "out", ""⟩)
        [("id", "g")]).2 = .ok r ∧
      resolveReply 0 r =
        "Output too large. Playground link: " ++
          ("https://play.rust-lang.org/?version=" ++ "nightly" ++ "&mode=" ++
            "debug" ++ "&edition=" ++ "2018" ++ "&gist=" ++ "g") :=
  claim_C8_overflow_gist_reply 0 ⟨fun _ => none, ""⟩ "c" ⟨true, "out", ""⟩
    [("id", "g")] "g" ⟨.Nightly, .Debug, .E2018⟩ false "" rfl rfl rfl (by decide)

/-- C1 (counterexample): a `warn` parameter that fails to parse appends
the fixed line `invalid warn bool`, which does not name the raw value
(`yes` here), contrary to the claim that every failing key's error line
names the offending field and the raw value. -/
theorem claim_C1_counterexample :
    boolFromStr "yes" = .error "provided string was not `true` or `false`" ∧
    (parse_flags ⟨fun k => if k = "warn" then some "yes" else none, ""⟩).2.2 =
      "invalid warn bool\n" ∧
    strContains "invalid warn bool\n" "yes" = false :=
  ⟨rfl, rfl, by decide⟩

/-- C1 (amended): each of `channel`, `mode`, `edition`, `warn` that is
present and parses successfully overwrites the corresponding default
(channel=Nightly, mode=Debug, edition=2018, warn=false); each of
`channel`, `mode`, `edition` that is present and fails to parse leaves
the default in place and appends an error line naming the offending
field and the raw value; a failing `warn` leaves the default in place
and appends the fixed line `invalid warn bool`, which names the field
but not the raw value; when every present key parses, the error text is
empty; `parse_flags` is a total function, so it always returns. -/
theorem claim_C1_flag_resolution (args : Args) :
    (∀ s c, args.params "channel" = some s → Channel.fromStr s = .ok c →
      (parse_flags args).1.channel = c) ∧
    (∀ s e, args.params "channel" = some s → Channel.fromStr s = .error e →
      (parse_flags args).1.channel = .Nightly ∧
      e = "invalid release channel `" ++ s ++ "`" ∧
      strContains (parse_flags args).2.2 (e ++ "\n") = true) ∧
    (∀ s m, args.params "mode" = some s → Mode.fromStr s = .ok m →
      (parse_flags args).1.mode = m) ∧
    (∀ s e, args.params "mode" = some s → Mode.fromStr s = .error e →
      (parse_flags args).1.mode = .Debug ∧
      e = "invalid compilation mode `" ++ s ++ "`" ∧
      strContains (parse_flags args).2.2 (e ++ "\n") = true) ∧
    (∀ s ed, args.params "edition" = some s → Edition.fromStr s = .ok ed →
      (parse_flags args).1.edition = ed) ∧
    (∀ s e, args.params "edition" = some s → Edition.fromStr s = .error e →
      (parse_flags args).1.edition = .E2018 ∧
      e = "invalid edition `" ++ s ++ "`" ∧
      strContains (parse_flags args).2.2 (e ++ "\n") = true) ∧
    (∀ s b, args.params "warn" = some s → boolFromStr s = .ok b →
      (parse_flags args).2.1 = b) ∧
    (∀ s e, args.params "warn" = some s → boolFromStr s = .error e →
      (parse_flags args).2.1 = false ∧
      strContains (parse_flags args).2.2 "invalid warn bool\n" = true) ∧
    ((∀ s, args.params "channel" = some s → ∃ c, Channel.fromStr s = .ok c) →
      (∀ s, args.params "mode" = some s → ∃ m, Mode.fromStr s = .ok m) →
      (∀ s, args.params "edition" = some s → ∃ ed, Edition.fromStr s = .ok ed) →
      (∀ s, args.params "warn" = some s → ∃ b, boolFromStr s = .ok b) →
      (parse_flags args).2.2 = "") := by
  rw [parse_flags_eq]
  refine ⟨?_, ?_, ?_, ?_, ?_, ?_, ?_, ?_, ?_⟩
  · intro s c hs hok
    simp [channelResolved, hs, hok]
  · intro s e hs he
    refine ⟨by simp [channelResolved, hs, he], channelFromStr_error_eq s e he, ?_⟩
    simp only [channelError, hs, he]
    apply strContains_append_left
    apply strContains_append_left
    apply strContains_append_left
    exact strContains_refl _
  · intro s m hs hok
    simp [modeResolved, hs, hok]
  · intro s e hs he
    refine ⟨by simp [modeResolved, hs, he], modeFromStr_error_eq s e he, ?_⟩
    simp only [modeError, hs, he]
    apply strContains_append_left
    apply strContains_append_left
    exact strContains_suffix_self _ _
  · intro s ed hs hok
    simp [editionResolved, hs, hok]
  · intro s e hs he
    refine ⟨by simp [editionResolved, hs, he], editionFromStr_error_eq s e he, ?_⟩
    simp only [editionError, hs, he]
    apply strContains_append_left
    exact strContains_suffix_self _ _
  · intro s b hs hok
    simp [warnResolved, hs, hok]
  · intro s e hs he
    refine ⟨by simp [warnResolved, hs, he], ?_⟩
    simp only [warnError, hs, he]
    exact strContains_suffix_self _ _
  · intro h1 h2 h3 h4
    have e1 : channelError (args.params "channel") = "" := by
      rcases hc : args.params "channel" with _ | s
      · rfl
      · obtain ⟨c, hok⟩ := h1 s hc
        simp [channelError, hok]
    have e2 : modeError (args.params "mode") = "" := by
      rcases hc : args.params "mode" with _ | s
      · rfl
      · obtain ⟨m, hok⟩ := h2 s hc
        simp [modeError, hok]
    have e3 : editionError (args.params "edition") = "" := by
      rcases hc : args.params "edition" with _ | s
      · rfl
      · obtain ⟨ed, hok⟩ := h3 s hc
        simp [editionError, hok]
    have e4 : warnError (args.params "warn") = "" := by
      rcases hc : args.params "warn" with _ | s
      · rfl
      · obtain ⟨b, hok⟩ := h4 s hc
        simp [warnError, hok]
    simp [e1, e2, e3, e4]

/-- Witness for C1: a parameter map where `channel=stable` parses and
overwrites the default while `mode=rel` fails, keeps the default and
contributes its error line. -/
theorem claim_C1_witness :
    (parse_flags ⟨fun k =>
      if k = "channel" then some "stable" else
      if k = "mode" then some "rel" else none, ""⟩).1.channel = .Stable ∧
    (parse_flags ⟨fun k =>
      if k = "channel" then some "stable" else
      if k = "mode" then some "rel" else none, ""⟩).1.mode = .Debug ∧
    strContains (parse_flags ⟨fun k =>
      if k = "channel" then some "stable" else
      if k = "mode" then some "rel" else none, ""⟩).2.2
      ("invalid compilation mode `" ++ "rel" ++ "`" ++ "\n") = true := by
  refine ⟨(claim_C1_flag_resolution _).1 "stable" .Stable rfl rfl, ?_, ?_⟩
  · exact ((claim_C1_flag_resolution _).2.2.2.1 "rel"
      ("invalid compilation mode `" ++ "rel" ++ "`") rfl rfl).1
  · exact ((claim_C1_flag_resolution _).2.2.2.1 "rel"
      ("invalid compilation mode `" ++ "rel" ++ "`") rfl rfl).2.2

end Playground
